import Mathlib



/-!
Verification development for the dashlane-cli core: the session-secret
manager (keychainManager.ts) and the secure-note retrieval pipeline
(getSecureNotes.ts), shallowly embedded in Lean 4.

Modelling conventions:
- Buffers (Node.js byte buffers) are `List Nat`.
- External cryptographic primitives (encrypt.js, decrypt.js, hash.js are
  not part of the core sources) are modelled from the spec interface:
  encryption produces a self-describing blob, decryption with the wrong
  key fails closed, derivation is deterministic in (password, parameters).
- Base64 and hex encode/decode round-trips at the keytar and registrar
  boundaries are elided: keys are carried as their byte content.
- JavaScript truthiness is modelled explicitly where the source branches
  on it: an optional string is falsy when absent or empty; a Buffer
  object is truthy even when it is empty or short.
-/

abbrev Buffer := List Nat

/-- UTF-8 encoding of a JS string, modelled as the list of character codes. -/
def utf8Encode (s : String) : Buffer := s.data.map Char.toNat

/-- Decoding of a byte buffer back to a JS string (model inverse of utf8Encode). -/
def utf8Decode (b : Buffer) : String := ⟨b.map Char.ofNat⟩

/-- Error kinds surfaced by the core (spec section 7). -/
inductive DashError where
  | decryptionFailed
  | keyGenerationFailed
  | notFound
  | typeError
deriving DecidableEq, Repr

/-- Modelled from the spec: a self-describing ciphertext blob produced by the
external symmetric cipher; it carries whatever the scheme needs to decrypt. -/
structure EncryptedBlob where
  key : Buffer
  payload : Buffer
deriving DecidableEq, Repr

/-- Modelled from the spec: encrypt(key, plaintext) returns a self-describing blob
(encryptAES in encrypt.js, which is outside the core sources). -/
def encryptAES (key : Buffer) (payload : Buffer) : EncryptedBlob := ⟨key, payload⟩

/-- Modelled from the spec: decrypt(blob, key) returns the plaintext when the key
is the one the blob was produced with, and fails closed with a decryption error
otherwise (decrypt in decrypt.js, which is outside the core sources). -/
def decrypt (blob : EncryptedBlob) (key : Buffer) : Except DashError Buffer :=
  if blob.key = key then .ok blob.payload else .error .decryptionFailed

/-- Modelled from the spec: the external digest function (sha512 in hash.js,
outside the core sources); any deterministic fixed-size digest. -/
def sha512 (s : String) : Buffer := (utf8Encode s ++ List.replicate 64 0).take 64

structure KeyDerivationConfig where
  algo : String
  saltLength : Nat
  tCost : Nat
  mCost : Nat
  parallelism : Nat
deriving DecidableEq, Repr

structure CipherConfig where
  encryption : String
  cipherMode : String
  ivLength : Nat
deriving DecidableEq, Repr

structure CipherData where
  salt : Buffer
  iv : Buffer
  hash : Buffer
  encryptedPayload : Buffer
deriving DecidableEq, Repr

structure EncryptedData where
  keyDerivation : KeyDerivationConfig
  cipherConfig : CipherConfig
  cipherData : CipherData
deriving DecidableEq, Repr

/-- Fake transaction used to set derivation parameters to encrypt the local key
in the DB using the master password (keychainManager.ts). -/
def getDerivationParametersForLocalKey (login : String) : EncryptedData :=
  { keyDerivation := { algo := "argon2d", saltLength := 16, tCost := 3, mCost := 32768, parallelism := 2 }
    cipherConfig := { encryption := "aes256", cipherMode := "cbchmac", ivLength := 0 }
    cipherData := { salt := (sha512 login).take 16, iv := [], hash := [], encryptedPayload := [] } }

/-- Modelled from the spec: argon2-based password stretching (decrypt.js, outside
the core sources); a deterministic, collision-discouraging function of the
password and the salt carried by the parameters. -/
def getDerivateUsingParametersFromEncryptedData (masterPassword : String) (d : EncryptedData) : Buffer :=
  d.cipherData.salt.length :: d.cipherData.salt ++ utf8Encode masterPassword

/-- The Secrets bundle returned by session resolution (types.ts). The secretKey
is carried as bytes: the hex-string representation used at the registrar
boundary round-trips and is elided. -/
structure Secrets where
  login : String
  masterPassword : String
  accessKey : String
  secretKey : Buffer
deriving DecidableEq, Repr

/-- One row of the device table: login is the primary key, the three Encrypted
columns are ciphertext blobs (spec section 6, DeviceStore schema). -/
structure DeviceRow where
  login : String
  accessKey : String
  secretKeyEncrypted : EncryptedBlob
  masterPasswordEncrypted : EncryptedBlob
  localKeyEncrypted : EncryptedBlob
deriving DecidableEq, Repr

/-- DeviceKeys as read back from the device table (types.ts). -/
structure DeviceKeys where
  accessKey : String
  secretKeyEncrypted : EncryptedBlob
  masterPasswordEncrypted : EncryptedBlob
  localKeyEncrypted : EncryptedBlob
deriving DecidableEq, Repr

structure DeviceKeysWithLogin extends DeviceKeys where
  login : String
deriving DecidableEq, Repr

def rowToDeviceKeysWithLogin (r : DeviceRow) : DeviceKeysWithLogin :=
  { login := r.login, accessKey := r.accessKey, secretKeyEncrypted := r.secretKeyEncrypted,
    masterPasswordEncrypted := r.masterPasswordEncrypted, localKeyEncrypted := r.localKeyEncrypted }

/-- The OS credential cache (keytar) for the fixed SERVICE constant: an
association from login to the stored key bytes (base64 round-trip elided). -/
abbrev Cache := List (String × Buffer)

def cacheGetPassword (c : Cache) (login : String) : Option Buffer :=
  (c.find? (fun p => p.1 == login)).map (fun p => p.2)

def cacheSetPassword (c : Cache) (login : String) (key : Buffer) : Cache :=
  (login, key) :: c.filter (fun p => p.1 != login)

/-- getLocalKey (keychainManager.ts): keytar.getPassword, then base64-decode.
An empty stored string is falsy in JS, so an empty key reads back as absent. -/
def getLocalKey (cache : Cache) (login : String) : Option Buffer :=
  match cacheGetPassword cache login with
  | some localKeyEncoded => if localKeyEncoded.isEmpty then none else some localKeyEncoded
  | none => none

/-- setLocalKey (keychainManager.ts). randomBytes models what
crypto.randomBytes(32) yields: none for a null result. The JS guard is
truthiness of the Buffer, and every Buffer object is truthy, so only a null
result trips the key-generation error; the key bytes are then stored under the
login via keytar.setPassword. -/
def setLocalKey (randomBytes : Option Buffer) (login : String) (localKey : Option Buffer)
    (cache : Cache) : Except DashError (Buffer × Cache) :=
  match localKey with
  | some k => .ok (k, cacheSetPassword cache login k)
  | none =>
    match randomBytes with
    | none => .error .keyGenerationFailed
    | some k => .ok (k, cacheSetPassword cache login k)

/-- REPLACE INTO device: delete any row with the same primary key (login), then
insert the new row. -/
def replaceInto (store : List DeviceRow) (row : DeviceRow) : List DeviceRow :=
  row :: store.filter (fun r => r.login != row.login)

/-- The environment of one getSecrets call: what the interactive prompts, the
device registrar and the random source would yield if consulted. -/
structure Env where
  promptedLogin : String
  promptedPassword : String
  registrarAccessKey : String
  registrarSecretKey : Buffer
  randomBytes : Option Buffer
deriving DecidableEq, Repr

/-- Result of one session-resolution call: outcome, resulting cache and device
table, the rows written to the device table during the call, and counters for
password derivations and device registrations performed. -/
structure SessOut where
  result : Except DashError Secrets
  cache : Cache
  store : List DeviceRow
  storeWrites : List DeviceRow
  derivations : Nat
  registrations : Nat
deriving Repr

/-- JS truthiness check on an optional string: absent or empty is falsy. -/
def strFalsy : Option String → Bool
  | none => true
  | some s => s == ""

/-- The master password actually used: the supplied one when truthy, otherwise
the one obtained from promptMasterPassword. -/
def resolvePassword (env : Env) (masterPassword : Option String) : String :=
  match masterPassword with
  | some mp => if mp == "" then env.promptedPassword else mp
  | none => env.promptedPassword

/-- getSecretsWithoutDB (keychainManager.ts): the first-run branch. Derives,
registers the device, establishes the local key (generating one only when the
caller did not pass one), encrypts the three artifacts and persists one device
row via REPLACE INTO. -/
def getSecretsWithoutDB (env : Env) (store : List DeviceRow) (cache : Cache)
    (login : String) (masterPassword : Option String) (localKey : Option Buffer) : SessOut :=
  let mp := resolvePassword env masterPassword
  let derivate := getDerivateUsingParametersFromEncryptedData mp (getDerivationParametersForLocalKey login)
  let deviceAccessKey := env.registrarAccessKey
  let deviceSecretKey := env.registrarSecretKey
  match (match localKey with
         | some k => Except.ok (k, cache)
         | none => setLocalKey env.randomBytes login none cache) with
  | .error e => ⟨.error e, cache, store, [], 1, 1⟩
  | .ok (lk, cache1) =>
    let deviceSecretKeyEncrypted := encryptAES lk deviceSecretKey
    let masterPasswordEncrypted := encryptAES lk (utf8Encode mp)
    let localKeyEncrypted := encryptAES derivate lk
    let row : DeviceRow :=
      ⟨login, deviceAccessKey, deviceSecretKeyEncrypted, masterPasswordEncrypted, localKeyEncrypted⟩
    ⟨.ok ⟨login, mp, deviceAccessKey, deviceSecretKey⟩, cache1, replaceInto store row, [row], 1, 1⟩

/-- getSecretsWithoutKeychain (keychainManager.ts): the recovery branch. Derives
from the master password, unwraps the local key from the device row, unwraps the
secret key, re-stores the local key into the credential cache. -/
def getSecretsWithoutKeychain (env : Env) (store : List DeviceRow) (cache : Cache)
    (login : String) (deviceKeys : DeviceKeys) (masterPassword : Option String) : SessOut :=
  let mp := resolvePassword env masterPassword
  let derivate := getDerivateUsingParametersFromEncryptedData mp (getDerivationParametersForLocalKey login)
  match decrypt deviceKeys.localKeyEncrypted derivate with
  | .error e => ⟨.error e, cache, store, [], 1, 0⟩
  | .ok localKey =>
    match decrypt deviceKeys.secretKeyEncrypted localKey with
    | .error e => ⟨.error e, cache, store, [], 1, 0⟩
    | .ok secretKey =>
      match setLocalKey env.randomBytes login (some localKey) cache with
      | .error e => ⟨.error e, cache, store, [], 1, 0⟩
      | .ok (_, cache1) =>
        ⟨.ok ⟨login, mp, deviceKeys.accessKey, secretKey⟩, cache1, store, [], 1, 0⟩

/-- getSecrets (keychainManager.ts): branch selection. No device row: first-run
branch. Device row but no cached local key: recovery branch. Otherwise the fast
path: decrypt the master password (only when none was supplied) and the secret
key directly with the cached local key, with no derivation, no registration and
no writes. -/
def getSecrets (env : Env) (store : List DeviceRow) (cache : Cache)
    (deviceKeys : Option DeviceKeysWithLogin) (masterPassword : Option String) : SessOut :=
  let login := match deviceKeys with
    | some dk => dk.login
    | none => env.promptedLogin
  let localKey := getLocalKey cache login
  match deviceKeys with
  | none => getSecretsWithoutDB env store cache login masterPassword localKey
  | some dk =>
    match localKey with
    | none => getSecretsWithoutKeychain env store cache login dk.toDeviceKeys masterPassword
    | some lk =>
      let mpRes : Except DashError String :=
        if strFalsy masterPassword then (decrypt dk.masterPasswordEncrypted lk).map utf8Decode
        else .ok (resolvePassword env masterPassword)
      match mpRes with
      | .error e => ⟨.error e, cache, store, [], 0, 0⟩
      | .ok mp =>
        match decrypt dk.secretKeyEncrypted lk with
        | .error e => ⟨.error e, cache, store, [], 0, 0⟩
        | .ok secretKey => ⟨.ok ⟨login, mp, dk.accessKey, secretKey⟩, cache, store, [], 0, 0⟩

/-- Iterated session resolution: thread the device table and the cache through a
sequence of getSecrets calls. -/
def runGetSecrets : List (Env × Option DeviceKeysWithLogin × Option String) →
    List DeviceRow → Cache → List DeviceRow × Cache
  | [], store, cache => (store, cache)
  | c :: rest, store, cache =>
    let out := getSecrets c.1 store cache c.2.1 c.2.2
    runGetSecrets rest out.store out.cache

/-- At most one device row per login. -/
def storeWF (store : List DeviceRow) : Prop :=
  ∀ l : String, (store.filter (fun r => r.login == l)).length ≤ 1

/-! ## Secure-note retrieval pipeline (getSecureNotes.ts) -/

/-- One (attributeKey, dataValue) entry of a decoded secure note, mirroring the
XML-attribute shape of the source data. -/
structure KWDataItem where
  key : String
  cdata : String
deriving DecidableEq, Repr

structure KWSecureNoteObj where
  KWDataItem : List KWDataItem
deriving DecidableEq, Repr

structure SecureNoteRoot where
  KWSecureNote : KWSecureNoteObj
deriving DecidableEq, Repr

structure SecureNoteTransactionContent where
  root : SecureNoteRoot
deriving DecidableEq, Repr

/-- One row of the transactions table. -/
structure TransactionRow where
  login : String
  action : String
  type : String
  /-- Modelled from the spec: the outcome of decrypting this transaction with
  the session secrets (decryptTransaction lives in the crypto module, outside
  the core sources) — either the decoded secure-note content or a decryption
  failure, fails closed on a wrong key or corrupted blob. -/
  decryptedPayload : Except DashError SecureNoteTransactionContent
deriving Repr

/-- Modelled from the spec: decryptTransaction(transaction, secrets); the
dependence on the secrets is absorbed into the decryptedPayload field of the
row, which records what decryption with the session secrets yields. -/
def decryptTransaction (t : TransactionRow) (_secrets : Secrets) :
    Except DashError SecureNoteTransactionContent :=
  t.decryptedPayload

/-- decryptSecureNotesTransactions (getSecureNotes.ts): keep SECURENOTE rows,
decrypt them all; Promise.all rejects the whole batch as soon as one decryption
fails, modelled by the fail-fast mapM over Except. -/
def decryptSecureNotesTransactions (transactions : List TransactionRow) (secrets : Secrets) :
    Except DashError (List SecureNoteTransactionContent) :=
  (transactions.filter (fun t => t.type == "SECURENOTE")).mapM
    (fun transaction => decryptTransaction transaction secrets)

/-- A beautified note object: the list of (fieldName, value) entries fed to
Object.fromEntries. Property reads use last-wins lookup, matching fromEntries
semantics for duplicate keys. -/
abbrev VaultNote := List (String × String)

/-- JS property read on a fromEntries object: the value of the last entry with
the given key, or absent. -/
def jsProp (n : VaultNote) (k : String) : Option String :=
  (n.reverse.find? (fun p => p.1 == k)).map (fun p => p.2)

/-- The attribute-key transform of getSecureNotes.ts line 45: lowercase the
first character only (OtpSecret becomes otpSecret). On an empty key the source
would fail (undefined has no toLowerCase); well-formed data has nonempty keys. -/
def jsLowerFirst (s : String) : String :=
  match s.data with
  | [] => ""
  | c :: rest => ⟨Char.toLower c :: rest⟩

/-- Reshape one decoded payload into a beautified note object. -/
def beautifyNote (item : SecureNoteTransactionContent) : VaultNote :=
  item.root.KWSecureNote.KWDataItem.map (fun entry => (jsLowerFirst entry.key, entry.cdata))

/-- JS String.prototype.toLowerCase, modelled per character. -/
def jsToLowerCase (s : String) : String := ⟨s.data.map Char.toLower⟩

def leadsWith : List Char → List Char → Bool
  | [], _ => true
  | _ :: _, [] => false
  | a :: as, b :: bs => a == b && leadsWith as bs

/-- JS String.prototype.includes: does the second list contain the first as a
contiguous run. -/
def hasSubstring (needle : List Char) : List Char → Bool
  | [] => needle.isEmpty
  | c :: rest => leadsWith needle (c :: rest) || hasSubstring needle rest

/-- The title-filter step of getNote: keep notes whose lowercased title contains
the canonical (lowercased) filter. Reading the title of a note that lacks one
fails the whole call, as the property access on undefined does in the source. -/
def filterByTitle (canonicalTitleFilter : String) :
    List VaultNote → Except DashError (List VaultNote)
  | [] => .ok []
  | n :: rest =>
    match jsProp n "title" with
    | none => .error .typeError
    | some t =>
      match filterByTitle canonicalTitleFilter rest with
      | .error e => .error e
      | .ok rest1 =>
        if hasSubstring canonicalTitleFilter.data (jsToLowerCase t).data
        then .ok (n :: rest1) else .ok rest1

/-- Array.prototype.sort with no comparator on plain note objects: every
element stringifies to the same text, the comparator ties everywhere, and the
(stable) sort returns the array unchanged. -/
def jsDefaultSortNotes (l : List VaultNote) : List VaultNote := l

/-- Boolean(titleFilter): false exactly when the filter is absent or empty. -/
def jsBool : Option String → Bool
  | none => false
  | some s => s != ""

/-- The matched-notes list getNote computes before selection: query the
transactions table for the login with action BACKUP_EDIT, decrypt the
SECURENOTE rows, beautify, apply the (truthy) title filter, default-sort. -/
def matchedNotesOf (db : List TransactionRow) (titleFilter : Option String)
    (secrets : Secrets) : Except DashError (List VaultNote) :=
  let transactions := db.filter (fun r => r.login == secrets.login && r.action == "BACKUP_EDIT")
  match decryptSecureNotesTransactions transactions secrets with
  | .error e => .error e
  | .ok notesDecrypted =>
    let beautifiedNotes := notesDecrypted.map beautifyNote
    match titleFilter with
    | none => .ok (jsDefaultSortNotes beautifiedNotes)
    | some f =>
      if f == "" then .ok (jsDefaultSortNotes beautifiedNotes)
      else
        match filterByTitle (jsToLowerCase f) beautifiedNotes with
        | .error e => .error e
        | .ok matched => .ok (jsDefaultSortNotes matched)

/-- Result of one getNote call: the emitted content (console.log of the
selected note's content field) or the error, together with the trace of
askSecureNoteChoice invocations (candidate list and hasFilters flag). -/
structure NoteOut where
  result : Except DashError (Option String)
  askCalls : List (List VaultNote × Bool)
deriving Repr

/-- getNote (getSecureNotes.ts): zero candidates fail with the No-note-found
error; one candidate is selected automatically; otherwise askSecureNoteChoice
is consulted once with the full candidate list and the hasFilters flag. The ask
argument models the external interactive disambiguator. -/
def getNote (ask : List VaultNote → Bool → VaultNote) (db : List TransactionRow)
    (titleFilter : Option String) (secrets : Secrets) : NoteOut :=
  match matchedNotesOf db titleFilter secrets with
  | .error e => ⟨.error e, []⟩
  | .ok matchedNotes =>
    if matchedNotes.length == 0 then ⟨.error .notFound, []⟩
    else if matchedNotes.length == 1 then
      ⟨.ok (jsProp (matchedNotes.headD []) "content"), []⟩
    else
      let hasFilters := jsBool titleFilter
      let selectedNote := ask matchedNotes hasFilters
      ⟨.ok (jsProp selectedNote "content"), [(matchedNotes, hasFilters)]⟩

/-! ## Claims about the secure-note pipeline -/

/-- Spec-side predicate, written from the claim: the note title contains the
filter as a case-insensitive substring. -/
def titleMatchesCI (n : VaultNote) (f : String) : Bool :=
  hasSubstring (jsToLowerCase f).data (jsToLowerCase ((jsProp n "title").getD "")).data

/-- Spec-side transform, written from the claim: the field name is the
attribute key with only its first character lower-cased. -/
def specLowerFirstChar (s : String) : String :=
  match s.data with
  | [] => s
  | c :: rest => ⟨Char.toLower c :: rest⟩

/-! ## Concrete data used by the witnesses -/

def noteW (title content : String) : SecureNoteTransactionContent :=
  ⟨⟨⟨[⟨"Title", title⟩, ⟨"Content", content⟩]⟩⟩⟩

def secretsW : Secrets := ⟨"alice", "mp", "AK", [1, 2, 3]⟩

def askW : List VaultNote → Bool → VaultNote := fun l _ => l.headD []

def dbW : List TransactionRow :=
  [⟨"alice", "BACKUP_EDIT", "SECURENOTE", .ok (noteW "My Wifi Password" "c1")⟩,
   ⟨"alice", "BACKUP_EDIT", "SECURENOTE", .ok (noteW "Bank PIN" "c2")⟩]

def notesW : List SecureNoteTransactionContent :=
  [noteW "My Wifi Password" "c1", noteW "Bank PIN" "c2"]

def csW : List VaultNote :=
  [[("title", "My Wifi Password"), ("content", "c1")],
   [("title", "Bank PIN"), ("content", "c2")]]

def dbBadW : List TransactionRow :=
  [⟨"alice", "BACKUP_EDIT", "SECURENOTE", .error .decryptionFailed⟩]

def txBadW : TransactionRow :=
  ⟨"alice", "BACKUP_EDIT", "SECURENOTE", .error .decryptionFailed⟩

/-! ## Claims about the session-secret manager -/

def envNoRandW : Env := ⟨"alice", "pw", "AK", [1, 2, 3], none⟩

def envW : Env := ⟨"alice", "pw", "AK", [1, 2, 3], some (List.replicate 32 7)⟩

def lkW : Buffer := List.replicate 32 7

def dkW : DeviceKeysWithLogin :=
  { login := "alice", accessKey := "AK",
    secretKeyEncrypted := encryptAES lkW [1, 2, 3],
    masterPasswordEncrypted := encryptAES lkW (utf8Encode "mp"),
    localKeyEncrypted := encryptAES
      (getDerivateUsingParametersFromEncryptedData "mp"
        (getDerivationParametersForLocalKey "alice")) lkW }

def cacheW : Cache := [("alice", lkW)]

def rowW : DeviceRow :=
  ((getSecrets envW [] [] none (some "mp")).storeWrites).headD
    ⟨"", "", ⟨[], []⟩, ⟨[], []⟩, ⟨[], []⟩⟩

/-! ## Helper lemmas -/

theorem hasSubstring_nil (hay : List Char) : hasSubstring [] hay = true := by
  cases hay with
  | nil => rfl
  | cons c rest => simp [hasSubstring, leadsWith]

theorem filterByTitle_ok (canon : String) (l : List VaultNote)
    (h : ∀ n ∈ l, (jsProp n "title").isSome) :
    filterByTitle canon l =
      .ok (l.filter (fun n =>
        hasSubstring canon.data (jsToLowerCase ((jsProp n "title").getD "")).data)) := by
  induction l with
  | nil => rfl
  | cons n rest ih =>
    have hn : (jsProp n "title").isSome := h n (by simp)
    obtain ⟨t, ht⟩ := Option.isSome_iff_exists.mp hn
    have hrest := ih (fun m hm => h m (by simp [hm]))
    simp only [filterByTitle, ht, hrest, List.filter_cons, Option.getD_some]
    by_cases hc : hasSubstring canon.data (jsToLowerCase t).data
    · simp [hc]
    · simp [hc]

theorem mapM_eq_error_of_first {α β : Type} (f : α → Except DashError β)
    (pre : List α) (t : α) (post : List α) (e : DashError)
    (hpre : ∀ x ∈ pre, ∃ y, f x = .ok y) (ht : f t = .error e) :
    (pre ++ t :: post).mapM f = .error e := by
  induction pre with
  | nil =>
    rw [List.nil_append, List.mapM_cons, ht]
    rfl
  | cons a rest ih =>
    obtain ⟨y, hy⟩ := hpre a (by simp)
    have hrest := ih (fun x hx => hpre x (by simp [hx]))
    rw [List.cons_append, List.mapM_cons, hy]
    show (rest ++ t :: post).mapM f >>= _ = _
    rw [hrest]
    rfl

/-- C4: if decrypting any single SECURENOTE transaction of the batch fails (tx
being the earliest failing item, with error e), the entire getNote retrieval
aborts with that error: nothing is emitted, no item is silently skipped, and
the disambiguator is never consulted. -/
theorem c4_decrypt_failure_aborts (ask : List VaultNote → Bool → VaultNote)
    (db : List TransactionRow) (titleFilter : Option String) (secrets : Secrets)
    (pre post : List TransactionRow) (tx : TransactionRow) (e : DashError)
    (hsplit : ((db.filter (fun r => r.login == secrets.login && r.action == "BACKUP_EDIT")).filter
        (fun t => t.type == "SECURENOTE")) = pre ++ tx :: post)
    (hpre : ∀ x ∈ pre, ∃ y, decryptTransaction x secrets = .ok y)
    (htx : decryptTransaction tx secrets = .error e) :
    getNote ask db titleFilter secrets = ⟨.error e, []⟩ := by
  have hdec : decryptSecureNotesTransactions
      (db.filter (fun r => r.login == secrets.login && r.action == "BACKUP_EDIT")) secrets
      = .error e := by
    unfold decryptSecureNotesTransactions
    rw [hsplit]
    exact mapM_eq_error_of_first _ pre tx post e hpre htx
  unfold getNote matchedNotesOf
  simp only [hdec]

/-- C5: selection semantics of getNote over the matched candidate list cs: zero
candidates fail with the not-found error; exactly one candidate is selected
automatically with no interactive call; two or more candidates invoke the
interactive disambiguator exactly once, with the full candidate list and the
flag recording whether a (truthy) filter was applied. -/
theorem c5_selection_semantics (ask : List VaultNote → Bool → VaultNote)
    (db : List TransactionRow) (titleFilter : Option String) (secrets : Secrets)
    (cs : List VaultNote)
    (h : matchedNotesOf db titleFilter secrets = .ok cs) :
    (cs = [] → getNote ask db titleFilter secrets = ⟨.error .notFound, []⟩) ∧
    (∀ n, cs = [n] → getNote ask db titleFilter secrets = ⟨.ok (jsProp n "content"), []⟩) ∧
    (2 ≤ cs.length →
      getNote ask db titleFilter secrets =
        ⟨.ok (jsProp (ask cs (jsBool titleFilter)) "content"), [(cs, jsBool titleFilter)]⟩) := by
  refine ⟨fun h0 => ?_, fun n h1 => ?_, fun h2 => ?_⟩
  · subst h0
    unfold getNote
    simp [h]
  · subst h1
    unfold getNote
    simp [h]
  · unfold getNote
    simp only [h]
    have hne0 : (cs.length == 0) = false := by
      simp only [beq_eq_false_iff_ne]
      omega
    have hne1 : (cs.length == 1) = false := by
      simp only [beq_eq_false_iff_ne]
      omega
    simp [hne0, hne1]

/-- C6: when a title filter is provided, getNote keeps exactly the decrypted
notes whose title contains the filter as a case-insensitive substring; with no
filter, all decrypted notes are kept. -/
theorem c6_filter_semantics (db : List TransactionRow) (secrets : Secrets) (f : String)
    (notes : List SecureNoteTransactionContent)
    (hdec : decryptSecureNotesTransactions
      (db.filter (fun r => r.login == secrets.login && r.action == "BACKUP_EDIT")) secrets
      = .ok notes)
    (htitles : ∀ n ∈ notes.map beautifyNote, (jsProp n "title").isSome) :
    matchedNotesOf db (some f) secrets =
      .ok ((notes.map beautifyNote).filter (fun n => titleMatchesCI n f)) ∧
    matchedNotesOf db none secrets = .ok (notes.map beautifyNote) := by
  constructor
  · unfold matchedNotesOf
    simp only [hdec]
    by_cases hf : f = ""
    · subst hf
      have hall : (notes.map beautifyNote).filter (fun n => titleMatchesCI n "")
          = notes.map beautifyNote := by
        apply List.filter_eq_self.mpr
        intro n _
        unfold titleMatchesCI
        have h0 : (jsToLowerCase "").data = ([] : List Char) := rfl
        rw [h0]
        exact hasSubstring_nil _
      simp [jsDefaultSortNotes, hall]
    · have hfb : (f == "") = false := by simp [hf]
      rw [filterByTitle_ok _ _ htitles]
      simp [hfb, jsDefaultSortNotes, titleMatchesCI]
  · unfold matchedNotesOf
    simp [hdec, jsDefaultSortNotes]

theorem jsLowerFirst_eq_spec (s : String) (h : s ≠ "") :
    jsLowerFirst s = specLowerFirstChar s := by
  cases s with
  | mk data =>
    cases data with
    | nil => exact absurd rfl h
    | cons c rest => rfl

/-- C8: each decrypted payload is reshaped into a VaultNote by mapping every
attribute entry to the field named by the key with only its first character
lower-cased, paired with the entry data; unknown keys pass through under the
same rule, and OtpSecret and Title map to otpSecret and title. -/
theorem c8_attribute_transform (item : SecureNoteTransactionContent)
    (h : ∀ entry ∈ item.root.KWSecureNote.KWDataItem, entry.key ≠ "") :
    beautifyNote item =
      item.root.KWSecureNote.KWDataItem.map
        (fun entry => (specLowerFirstChar entry.key, entry.cdata)) ∧
    jsLowerFirst "OtpSecret" = "otpSecret" ∧ jsLowerFirst "Title" = "title" := by
  refine ⟨?_, rfl, rfl⟩
  unfold beautifyNote
  exact List.map_congr_left (fun entry he => by rw [jsLowerFirst_eq_spec _ (h entry he)])

theorem c4_witness :
    getNote askW dbBadW none secretsW = ⟨.error .decryptionFailed, []⟩ :=
  c4_decrypt_failure_aborts askW dbBadW none secretsW [] [] txBadW .decryptionFailed
    rfl (fun x hx => absurd hx (List.not_mem_nil x)) rfl

theorem c5_witness :
    getNote askW dbW none secretsW =
      ⟨.ok (jsProp (askW csW (jsBool none)) "content"), [(csW, jsBool none)]⟩ :=
  (c5_selection_semantics askW dbW none secretsW csW rfl).2.2 (by decide)

theorem c6_witness :
    matchedNotesOf dbW (some "wifi") secretsW =
      .ok ((notesW.map beautifyNote).filter (fun n => titleMatchesCI n "wifi")) ∧
    matchedNotesOf dbW none secretsW = .ok (notesW.map beautifyNote) :=
  c6_filter_semantics dbW secretsW "wifi" notesW rfl (by decide)

theorem c8_witness :
    beautifyNote (noteW "T" "c") =
      (noteW "T" "c").root.KWSecureNote.KWDataItem.map
        (fun entry => (specLowerFirstChar entry.key, entry.cdata)) ∧
    jsLowerFirst "OtpSecret" = "otpSecret" ∧ jsLowerFirst "Title" = "title" :=
  c8_attribute_transform (noteW "T" "c") (by decide)

/-- C7 counterexample: a random source yielding only 16 of the required 32
bytes does not trip the key-generation error — the guard checks JS truthiness
of the Buffer, not its length — and the short key is stored in the credential
cache, contrary to the claim. -/
theorem c7_counterexample :
    (List.replicate 16 0).length < 32 ∧
    setLocalKey (some (List.replicate 16 0)) "alice" none [] =
      .ok (List.replicate 16 0, [("alice", List.replicate 16 0)]) :=
  ⟨by decide, rfl⟩

/-- C7 amended: setLocalKey fails with the fatal key-generation error, which is
distinct from decryption errors, exactly when the random source yields no key
at all; the first-run branch then leaves the credential cache unchanged and
stores no key. A key that is present but shorter than 32 bytes is not
detected (see the counterexample). -/
theorem c7_amended_keygen_failure (env : Env) (store : List DeviceRow) (cache : Cache)
    (login : String) (masterPassword : Option String)
    (hrb : env.randomBytes = none) :
    getSecretsWithoutDB env store cache login masterPassword none =
      ⟨.error .keyGenerationFailed, cache, store, [], 1, 1⟩ ∧
    DashError.keyGenerationFailed ≠ DashError.decryptionFailed := by
  constructor
  · unfold getSecretsWithoutDB setLocalKey
    rw [hrb]
  · decide

theorem c7_witness :
    getSecretsWithoutDB envNoRandW [] [] "alice" (some "mp") none =
      ⟨.error .keyGenerationFailed, [], [], [], 1, 1⟩ ∧
    DashError.keyGenerationFailed ≠ DashError.decryptionFailed :=
  c7_amended_keygen_failure envNoRandW [] [] "alice" (some "mp") rfl

/-- C10: the fast path performs no writes: when a device row is supplied and
the credential cache yields a local key for its login, getSecrets leaves the
device table and the cache unchanged, writes no row, performs no password
derivation and no device registration, and — when no master password was
supplied — its result is exactly the outcome of decrypting the stored master
password and secret key with the cached local key. -/
theorem c10_fast_path_frame (env : Env) (store : List DeviceRow) (cache : Cache)
    (dk : DeviceKeysWithLogin) (masterPassword : Option String) (lk : Buffer)
    (hlk : getLocalKey cache dk.login = some lk) :
    (getSecrets env store cache (some dk) masterPassword).cache = cache ∧
    (getSecrets env store cache (some dk) masterPassword).store = store ∧
    (getSecrets env store cache (some dk) masterPassword).storeWrites = [] ∧
    (getSecrets env store cache (some dk) masterPassword).derivations = 0 ∧
    (getSecrets env store cache (some dk) masterPassword).registrations = 0 ∧
    (masterPassword = none →
      (getSecrets env store cache (some dk) masterPassword).result =
        (decrypt dk.masterPasswordEncrypted lk).bind (fun mpBuf =>
          (decrypt dk.secretKeyEncrypted lk).map (fun sk =>
            ⟨dk.login, utf8Decode mpBuf, dk.accessKey, sk⟩))) := by
  refine ⟨?_, ?_, ?_, ?_, ?_, ?_⟩
  · unfold getSecrets
    simp only [hlk]
    split <;> (try rfl) <;> split <;> rfl
  · unfold getSecrets
    simp only [hlk]
    split <;> (try rfl) <;> split <;> rfl
  · unfold getSecrets
    simp only [hlk]
    split <;> (try rfl) <;> split <;> rfl
  · unfold getSecrets
    simp only [hlk]
    split <;> (try rfl) <;> split <;> rfl
  · unfold getSecrets
    simp only [hlk]
    split <;> (try rfl) <;> split <;> rfl
  · intro hmp
    subst hmp
    unfold getSecrets
    simp only [hlk]
    cases hd1 : decrypt dk.masterPasswordEncrypted lk with
    | error e => simp [strFalsy, hd1, Except.map, Except.bind]
    | ok b =>
      cases hd2 : decrypt dk.secretKeyEncrypted lk with
      | error e => simp [strFalsy, hd1, hd2, Except.map, Except.bind]
      | ok sk => simp [strFalsy, hd1, hd2, Except.map, Except.bind]

theorem storeWrites_some_nil (env : Env) (store : List DeviceRow) (cache : Cache)
    (dk : DeviceKeysWithLogin) (masterPassword : Option String) :
    (getSecrets env store cache (some dk) masterPassword).storeWrites = [] := by
  unfold getSecrets
  cases hclk : getLocalKey cache dk.login with
  | none =>
    simp only [hclk]
    unfold getSecretsWithoutKeychain
    cases h1 : decrypt dk.toDeviceKeys.localKeyEncrypted
        (getDerivateUsingParametersFromEncryptedData (resolvePassword env masterPassword)
          (getDerivationParametersForLocalKey dk.login)) with
    | error e => simp [h1]
    | ok lk2 =>
      cases h2 : decrypt dk.toDeviceKeys.secretKeyEncrypted lk2 with
      | error e => simp [h1, h2]
      | ok sk => simp [h1, h2, setLocalKey]
  | some lk =>
    simp only [hclk]
    cases hs : strFalsy masterPassword with
    | true =>
      cases h1 : decrypt dk.toDeviceKeys.masterPasswordEncrypted lk with
      | error e => simp [hs, h1, Except.map]
      | ok b =>
        cases h2 : decrypt dk.toDeviceKeys.secretKeyEncrypted lk with
        | error e => simp [hs, h1, h2, Except.map]
        | ok sk => simp [hs, h1, h2, Except.map]
    | false =>
      cases h2 : decrypt dk.toDeviceKeys.secretKeyEncrypted lk with
      | error e => simp [hs, h2]
      | ok sk => simp [hs, h2]

/-- C3: every row written to the device table during any getSecrets call stores
the local key only as ciphertext under the Derivate for that login, and stores
the secret key and the master password only as ciphertext under the local key;
the only plaintext columns hold the login and the registrar access key, so the
plaintext local key is never written to persistent storage. -/
theorem c3_storewrite_shape (env : Env) (store : List DeviceRow) (cache : Cache)
    (deviceKeys : Option DeviceKeysWithLogin) (masterPassword : Option String)
    (w : DeviceRow)
    (hw : w ∈ (getSecrets env store cache deviceKeys masterPassword).storeWrites) :
    ∃ lk mp,
      w.localKeyEncrypted =
        encryptAES (getDerivateUsingParametersFromEncryptedData mp
          (getDerivationParametersForLocalKey w.login)) lk ∧
      w.secretKeyEncrypted = encryptAES lk env.registrarSecretKey ∧
      w.masterPasswordEncrypted = encryptAES lk (utf8Encode mp) ∧
      w.accessKey = env.registrarAccessKey := by
  cases deviceKeys with
  | some dk =>
    rw [storeWrites_some_nil] at hw
    exact absurd hw (List.not_mem_nil w)
  | none =>
    unfold getSecrets getSecretsWithoutDB at hw
    cases hclk : getLocalKey cache env.promptedLogin with
    | some k =>
      simp only [hclk] at hw
      rcases List.mem_singleton.mp hw with rfl
      exact ⟨k, resolvePassword env masterPassword, rfl, rfl, rfl, rfl⟩
    | none =>
      simp only [hclk] at hw
      cases hrb : env.randomBytes with
      | none =>
        simp only [setLocalKey, hrb] at hw
        exact absurd hw (List.not_mem_nil w)
      | some k =>
        simp only [setLocalKey, hrb] at hw
        rcases List.mem_singleton.mp hw with rfl
        exact ⟨k, resolvePassword env masterPassword, rfl, rfl, rfl, rfl⟩

theorem c3_witness :
    ∃ lk mp,
      rowW.localKeyEncrypted =
        encryptAES (getDerivateUsingParametersFromEncryptedData mp
          (getDerivationParametersForLocalKey rowW.login)) lk ∧
      rowW.secretKeyEncrypted = encryptAES lk envW.registrarSecretKey ∧
      rowW.masterPasswordEncrypted = encryptAES lk (utf8Encode mp) ∧
      rowW.accessKey = envW.registrarAccessKey :=
  c3_storewrite_shape envW [] [] none (some "mp") rowW (by decide)

theorem c10_witness :
    (getSecrets envW [] cacheW (some dkW) none).cache = cacheW ∧
    (getSecrets envW [] cacheW (some dkW) none).store = [] ∧
    (getSecrets envW [] cacheW (some dkW) none).storeWrites = [] ∧
    (getSecrets envW [] cacheW (some dkW) none).derivations = 0 ∧
    (getSecrets envW [] cacheW (some dkW) none).registrations = 0 ∧
    (none = (none : Option String) →
      (getSecrets envW [] cacheW (some dkW) none).result =
        (decrypt dkW.masterPasswordEncrypted lkW).bind (fun mpBuf =>
          (decrypt dkW.secretKeyEncrypted lkW).map (fun sk =>
            ⟨dkW.login, utf8Decode mpBuf, dkW.accessKey, sk⟩))) :=
  c10_fast_path_frame envW [] cacheW dkW none lkW rfl

theorem filter_not_then_self {α : Type} (p : α → Bool) (s : List α) :
    (s.filter (fun a => !(p a))).filter p = [] := by
  induction s with
  | nil => rfl
  | cons a t ih =>
    cases hp : p a
    · simp [List.filter_cons, hp, ih]
    · simp [List.filter_cons, hp, ih]

theorem filter_not_filter_other {α : Type} (p q : α → Bool) (s : List α)
    (himp : ∀ a, q a = true → p a = false) :
    (s.filter (fun a => !(p a))).filter q = s.filter q := by
  induction s with
  | nil => rfl
  | cons a t ih =>
    cases hp : p a
    · simp [List.filter_cons, hp, ih]
    · have hq : q a = false := by
        cases hqa : q a
        · rfl
        · exact absurd (himp a hqa) (by simp [hp])
      simp [List.filter_cons, hp, hq, ih]

theorem filter_ne_then_eq (s : List DeviceRow) (key : String) :
    (s.filter (fun r => r.login != key)).filter (fun r => r.login == key) = [] :=
  filter_not_then_self (fun r => r.login == key) s

theorem replaceInto_filter_self (s : List DeviceRow) (row : DeviceRow) :
    (replaceInto s row).filter (fun r => r.login == row.login) = [row] := by
  unfold replaceInto
  rw [List.filter_cons]
  simp [filter_ne_then_eq]

theorem replaceInto_filter_other (s : List DeviceRow) (row : DeviceRow) (l : String)
    (h : (row.login == l) = false) :
    (replaceInto s row).filter (fun r => r.login == l) = s.filter (fun r => r.login == l) := by
  unfold replaceInto
  rw [List.filter_cons]
  simp only [h, Bool.false_eq_true, if_false]
  exact filter_not_filter_other (fun r => r.login == row.login) (fun r => r.login == l) s
    (fun a ha => by
      have hal : a.login = l := eq_of_beq ha
      show (a.login == row.login) = false
      cases hb : a.login == row.login
      · rfl
      · have h2 : a.login = row.login := eq_of_beq hb
        have h3 : row.login = l := by rw [← h2]; exact hal
        rw [h3] at h
        simp at h)

theorem storeWF_replaceInto (s : List DeviceRow) (row : DeviceRow) (h : storeWF s) :
    storeWF (replaceInto s row) := by
  intro l
  by_cases hl : row.login == l
  · have : row.login = l := eq_of_beq hl
    subst this
    rw [replaceInto_filter_self]
    simp
  · rw [replaceInto_filter_other s row l (by simpa using hl)]
    exact h l

theorem store_unchanged_some (env : Env) (store : List DeviceRow) (cache : Cache)
    (dk : DeviceKeysWithLogin) (masterPassword : Option String) :
    (getSecrets env store cache (some dk) masterPassword).store = store := by
  unfold getSecrets
  cases hclk : getLocalKey cache dk.login with
  | none =>
    simp only [hclk]
    unfold getSecretsWithoutKeychain
    cases h1 : decrypt dk.toDeviceKeys.localKeyEncrypted
        (getDerivateUsingParametersFromEncryptedData (resolvePassword env masterPassword)
          (getDerivationParametersForLocalKey dk.login)) with
    | error e => simp [h1]
    | ok lk2 =>
      cases h2 : decrypt dk.toDeviceKeys.secretKeyEncrypted lk2 with
      | error e => simp [h1, h2]
      | ok sk => simp [h1, h2, setLocalKey]
  | some lk =>
    simp only [hclk]
    cases hs : strFalsy masterPassword with
    | true =>
      cases h1 : decrypt dk.toDeviceKeys.masterPasswordEncrypted lk with
      | error e => simp [hs, h1, Except.map]
      | ok b =>
        cases h2 : decrypt dk.toDeviceKeys.secretKeyEncrypted lk with
        | error e => simp [hs, h1, h2, Except.map]
        | ok sk => simp [hs, h1, h2, Except.map]
    | false =>
      cases h2 : decrypt dk.toDeviceKeys.secretKeyEncrypted lk with
      | error e => simp [hs, h2]
      | ok sk => simp [hs, h2]

theorem storeWF_getSecrets (env : Env) (store : List DeviceRow) (cache : Cache)
    (deviceKeys : Option DeviceKeysWithLogin) (masterPassword : Option String)
    (h : storeWF store) :
    storeWF (getSecrets env store cache deviceKeys masterPassword).store := by
  cases deviceKeys with
  | some dk =>
    rw [store_unchanged_some]
    exact h
  | none =>
    unfold getSecrets getSecretsWithoutDB
    cases hclk : getLocalKey cache env.promptedLogin with
    | some k =>
      simp only [hclk]
      exact storeWF_replaceInto store _ h
    | none =>
      simp only [hclk]
      cases hrb : env.randomBytes with
      | none => simpa [setLocalKey, hrb] using h
      | some k =>
        simp only [setLocalKey, hrb]
        exact storeWF_replaceInto store _ h

/-- C9: after any sequence of getSecrets calls starting from a device table
with at most one row per login, the table still has at most one row per login:
first-run persistence is a full-row replace keyed by login, so repeating the
first-run setup overwrites rather than duplicates. -/
theorem c9_at_most_one_row (calls : List (Env × Option DeviceKeysWithLogin × Option String))
    (store : List DeviceRow) (cache : Cache) (h : storeWF store) :
    storeWF (runGetSecrets calls store cache).1 := by
  induction calls generalizing store cache with
  | nil => exact h
  | cons c rest ih =>
    exact ih _ _ (storeWF_getSecrets c.1 store cache c.2.1 c.2.2 h)

theorem c9_witness :
    storeWF (runGetSecrets [(envW, none, some "mp"), (envW, none, some "mp2")] [] []).1 :=
  c9_at_most_one_row [(envW, none, some "mp"), (envW, none, some "mp2")] [] []
    (fun l => by simp)

theorem decrypt_encryptAES (k p : Buffer) : decrypt (encryptAES k p) k = .ok p := by
  unfold decrypt encryptAES
  simp

theorem getLocalKey_cacheSet (cache : Cache) (login : String) (k : Buffer) (h : k ≠ []) :
    getLocalKey (cacheSetPassword cache login k) login = some k := by
  unfold getLocalKey cacheGetPassword cacheSetPassword
  rw [List.find?_cons_of_pos _ (by simp)]
  cases k with
  | nil => exact absurd rfl h
  | cons a t => simp [List.isEmpty]

theorem getLocalKey_ne_nil (cache : Cache) (login : String) (k : Buffer)
    (h : getLocalKey cache login = some k) : k ≠ [] := by
  unfold getLocalKey at h
  cases hc : cacheGetPassword cache login with
  | none => rw [hc] at h; cases h
  | some b =>
    rw [hc] at h
    cases b with
    | nil => simp at h
    | cons a t =>
      simp at h
      subst h
      simp

theorem fast_path_counters (env : Env) (store : List DeviceRow) (cache : Cache)
    (dk : DeviceKeysWithLogin) (mp2 : Option String) (lk : Buffer)
    (hlk : getLocalKey cache dk.login = some lk) :
    (getSecrets env store cache (some dk) mp2).derivations = 0 ∧
    (getSecrets env store cache (some dk) mp2).registrations = 0 ∧
    (getSecrets env store cache (some dk) mp2).storeWrites = [] := by
  unfold getSecrets
  simp only [hlk]
  cases hs : strFalsy mp2 with
  | true =>
    cases h1 : decrypt dk.toDeviceKeys.masterPasswordEncrypted lk with
    | error e => simp [hs, h1, Except.map]
    | ok b =>
      cases h2 : decrypt dk.toDeviceKeys.secretKeyEncrypted lk with
      | error e => simp [hs, h1, h2, Except.map]
      | ok sk => simp [hs, h1, h2, Except.map]
  | false =>
    cases h2 : decrypt dk.toDeviceKeys.secretKeyEncrypted lk with
    | error e => simp [hs, h2]
    | ok sk => simp [hs, h2]

theorem fast_path_result_ok (env : Env) (store : List DeviceRow) (cache : Cache)
    (dk : DeviceKeysWithLogin) (lk mpBuf sk : Buffer)
    (hclk : getLocalKey cache dk.login = some lk)
    (hmpe : dk.masterPasswordEncrypted = encryptAES lk mpBuf)
    (hske : dk.secretKeyEncrypted = encryptAES lk sk) :
    (getSecrets env store cache (some dk) none).result =
      .ok ⟨dk.login, utf8Decode mpBuf, dk.accessKey, sk⟩ := by
  unfold getSecrets
  simp only [hclk, hmpe, hske, decrypt_encryptAES]
  simp [strFalsy, Except.map]

/-- C2: recovery path: when the device row exists but the credential cache has
no local key for the login, getSecrets with the correct master password
recomputes the Derivate, recovers the local key from localKeyEncrypted,
recovers the same secret key that the first-run path stored, and re-stores the
local key into the credential cache, so that any subsequent getSecrets call for
the same login takes the fast path: zero derivations, zero registrations, and
no device-table writes. -/
theorem c2_recovery_path (env env2 : Env) (store : List DeviceRow) (cache : Cache)
    (dk : DeviceKeysWithLogin) (mp : String) (lk sk : Buffer)
    (hmp : mp ≠ "")
    (hnolk : getLocalKey cache dk.login = none)
    (hlk : dk.localKeyEncrypted =
      encryptAES (getDerivateUsingParametersFromEncryptedData mp
        (getDerivationParametersForLocalKey dk.login)) lk)
    (hsk : dk.secretKeyEncrypted = encryptAES lk sk)
    (hlkne : lk ≠ []) :
    (getSecrets env store cache (some dk) (some mp)).result =
      .ok ⟨dk.login, mp, dk.accessKey, sk⟩ ∧
    getLocalKey (getSecrets env store cache (some dk) (some mp)).cache dk.login = some lk ∧
    (getSecrets env store cache (some dk) (some mp)).store = store ∧
    (getSecrets env store cache (some dk) (some mp)).storeWrites = [] ∧
    (∀ mp2 : Option String,
      (getSecrets env2 store (getSecrets env store cache (some dk) (some mp)).cache
          (some dk) mp2).derivations = 0 ∧
      (getSecrets env2 store (getSecrets env store cache (some dk) (some mp)).cache
          (some dk) mp2).registrations = 0 ∧
      (getSecrets env2 store (getSecrets env store cache (some dk) (some mp)).cache
          (some dk) mp2).storeWrites = []) := by
  have hmpb : (mp == "") = false := by simp [hmp]
  have hout : getSecrets env store cache (some dk) (some mp) =
      ⟨.ok ⟨dk.login, mp, dk.accessKey, sk⟩,
       cacheSetPassword cache dk.login lk, store, [], 1, 0⟩ := by
    unfold getSecrets
    simp only [hnolk]
    unfold getSecretsWithoutKeychain
    simp only [resolvePassword, hmpb, Bool.false_eq_true, if_false, hlk, hsk,
      decrypt_encryptAES, setLocalKey]
  refine ⟨?_, ?_, ?_, ?_, fun mp2 => ?_⟩
  · rw [hout]
  · rw [hout]
    exact getLocalKey_cacheSet cache dk.login lk hlkne
  · rw [hout]
  · rw [hout]
  · rw [hout]
    exact fast_path_counters env2 store _ dk mp2 lk (getLocalKey_cacheSet cache dk.login lk hlkne)

theorem c2_witness :
    (getSecrets envW [] [] (some dkW) (some "mp")).result =
      .ok ⟨dkW.login, "mp", dkW.accessKey, [1, 2, 3]⟩ ∧
    getLocalKey (getSecrets envW [] [] (some dkW) (some "mp")).cache dkW.login = some lkW ∧
    (getSecrets envW [] [] (some dkW) (some "mp")).store = [] ∧
    (getSecrets envW [] [] (some dkW) (some "mp")).storeWrites = [] ∧
    (∀ mp2 : Option String,
      (getSecrets envW [] (getSecrets envW [] [] (some dkW) (some "mp")).cache
          (some dkW) mp2).derivations = 0 ∧
      (getSecrets envW [] (getSecrets envW [] [] (some dkW) (some "mp")).cache
          (some dkW) mp2).registrations = 0 ∧
      (getSecrets envW [] (getSecrets envW [] [] (some dkW) (some "mp")).cache
          (some dkW) mp2).storeWrites = []) :=
  c2_recovery_path envW envW [] [] dkW "mp" lkW [1, 2, 3] (by decide) rfl rfl rfl (by decide)

/-- C1: first run: with no device row, getSecrets with a master password
registers the device (exactly one registration), persists exactly one device
row for the login, and a later getSecrets call using that device row with no
master password supplied returns a Secrets bundle with the identical accessKey
and secretKey. -/
theorem c1_first_run_roundtrip (env env2 : Env) (store : List DeviceRow) (cache : Cache)
    (mp : String) (s1 : Secrets)
    (hmp : mp ≠ "")
    (hrand : ∀ k, env.randomBytes = some k → k ≠ [])
    (_hfresh : ∀ r ∈ store, r.login ≠ env.promptedLogin)
    (hres : (getSecrets env store cache none (some mp)).result = .ok s1) :
    (getSecrets env store cache none (some mp)).registrations = 1 ∧
    ∃ r : DeviceRow,
      (getSecrets env store cache none (some mp)).store.filter
        (fun x => x.login == env.promptedLogin) = [r] ∧
      ∃ s2 : Secrets,
        (getSecrets env2 (getSecrets env store cache none (some mp)).store
            (getSecrets env store cache none (some mp)).cache
            (some (rowToDeviceKeysWithLogin r)) none).result = .ok s2 ∧
        s2.accessKey = s1.accessKey ∧ s2.secretKey = s1.secretKey := by
  have hmpb : (mp == "") = false := by simp [hmp]
  cases hclk : getLocalKey cache env.promptedLogin with
  | some k =>
    have hkne : k ≠ [] := getLocalKey_ne_nil cache env.promptedLogin k hclk
    have hout : getSecrets env store cache none (some mp) =
        ⟨.ok ⟨env.promptedLogin, mp, env.registrarAccessKey, env.registrarSecretKey⟩,
         cache,
         replaceInto store
           ⟨env.promptedLogin, env.registrarAccessKey,
            encryptAES k env.registrarSecretKey, encryptAES k (utf8Encode mp),
            encryptAES (getDerivateUsingParametersFromEncryptedData mp
              (getDerivationParametersForLocalKey env.promptedLogin)) k⟩,
         [⟨env.promptedLogin, env.registrarAccessKey,
            encryptAES k env.registrarSecretKey, encryptAES k (utf8Encode mp),
            encryptAES (getDerivateUsingParametersFromEncryptedData mp
              (getDerivationParametersForLocalKey env.promptedLogin)) k⟩],
         1, 1⟩ := by
      unfold getSecrets
      simp only [hclk]
      unfold getSecretsWithoutDB
      simp only [resolvePassword, hmpb, Bool.false_eq_true, if_false]
    rw [hout] at hres
    injection hres with hs1
    refine ⟨by rw [hout],
      ⟨env.promptedLogin, env.registrarAccessKey,
       encryptAES k env.registrarSecretKey, encryptAES k (utf8Encode mp),
       encryptAES (getDerivateUsingParametersFromEncryptedData mp
         (getDerivationParametersForLocalKey env.promptedLogin)) k⟩,
      ?_,
      ⟨env.promptedLogin, utf8Decode (utf8Encode mp), env.registrarAccessKey,
       env.registrarSecretKey⟩, ?_, ?_, ?_⟩
    · rw [hout]
      exact replaceInto_filter_self store _
    · rw [hout]
      exact fast_path_result_ok env2 _ cache (rowToDeviceKeysWithLogin _) k
        (utf8Encode mp) env.registrarSecretKey hclk rfl rfl
    · rw [← hs1]
    · rw [← hs1]
  | none =>
    cases hrb : env.randomBytes with
    | none =>
      have hout : (getSecrets env store cache none (some mp)).result =
          .error .keyGenerationFailed := by
        unfold getSecrets
        simp only [hclk]
        unfold getSecretsWithoutDB
        simp only [resolvePassword, hmpb, Bool.false_eq_true, if_false, setLocalKey, hrb]
      rw [hout] at hres
      cases hres
    | some k =>
      have hkne : k ≠ [] := hrand k hrb
      have hout : getSecrets env store cache none (some mp) =
          ⟨.ok ⟨env.promptedLogin, mp, env.registrarAccessKey, env.registrarSecretKey⟩,
           cacheSetPassword cache env.promptedLogin k,
           replaceInto store
             ⟨env.promptedLogin, env.registrarAccessKey,
              encryptAES k env.registrarSecretKey, encryptAES k (utf8Encode mp),
              encryptAES (getDerivateUsingParametersFromEncryptedData mp
                (getDerivationParametersForLocalKey env.promptedLogin)) k⟩,
           [⟨env.promptedLogin, env.registrarAccessKey,
              encryptAES k env.registrarSecretKey, encryptAES k (utf8Encode mp),
              encryptAES (getDerivateUsingParametersFromEncryptedData mp
                (getDerivationParametersForLocalKey env.promptedLogin)) k⟩],
           1, 1⟩ := by
        unfold getSecrets
        simp only [hclk]
        unfold getSecretsWithoutDB
        simp only [resolvePassword, hmpb, Bool.false_eq_true, if_false, setLocalKey, hrb]
      rw [hout] at hres
      injection hres with hs1
      refine ⟨by rw [hout],
        ⟨env.promptedLogin, env.registrarAccessKey,
         encryptAES k env.registrarSecretKey, encryptAES k (utf8Encode mp),
         encryptAES (getDerivateUsingParametersFromEncryptedData mp
           (getDerivationParametersForLocalKey env.promptedLogin)) k⟩,
        ?_,
        ⟨env.promptedLogin, utf8Decode (utf8Encode mp), env.registrarAccessKey,
         env.registrarSecretKey⟩, ?_, ?_, ?_⟩
      · rw [hout]
        exact replaceInto_filter_self store _
      · rw [hout]
        exact fast_path_result_ok env2 _ (cacheSetPassword cache env.promptedLogin k)
          (rowToDeviceKeysWithLogin _) k (utf8Encode mp) env.registrarSecretKey
          (getLocalKey_cacheSet cache env.promptedLogin k hkne) rfl rfl
      · rw [← hs1]
      · rw [← hs1]

theorem c1_witness :
    (getSecrets envW [] [] none (some "mp")).registrations = 1 ∧
    ∃ r : DeviceRow,
      (getSecrets envW [] [] none (some "mp")).store.filter
        (fun x => x.login == envW.promptedLogin) = [r] ∧
      ∃ s2 : Secrets,
        (getSecrets envW (getSecrets envW [] [] none (some "mp")).store
            (getSecrets envW [] [] none (some "mp")).cache
            (some (rowToDeviceKeysWithLogin r)) none).result = .ok s2 ∧
        s2.accessKey = "AK" ∧ s2.secretKey = [1, 2, 3] :=
  c1_first_run_roundtrip envW envW [] [] "mp" ⟨"alice", "mp", "AK", [1, 2, 3]⟩
    (by decide)
    (fun k hk => by
      have h2 : some (List.replicate 32 7) = some k := hk
      cases h2
      decide)
    (fun r hr => absurd hr (List.not_mem_nil r))
    rfl
